/-
Verification development for the `workflows` repository: a set of
independent data-synchronization scripts (Instagram, VSCO, NeoDB, Last.fm,
Hitokoto, WakaTime, footprints).  Each script is a linear
fetch → transform → persist pipeline.  The definitions below are shallow
embeddings of the pipeline logic, translated function by function from the
TypeScript sources; external effects (HTTP fetches, the file system, the
process exit) are made explicit as parameters and result records.
-/
import Mathlib

/-- Outcome of one HTTP fetch (or of a fetch-plus-write) of a binary asset.
`ok` is a 2xx response whose body streams to disk successfully, `httpError`
is a non-2xx response, `failed` is a thrown error (network failure or a
stream/write error). -/
inductive FetchResult where
  | ok
  | httpError
  | failed
deriving DecidableEq, Repr

/-- How a Node process run ends: it either falls off the end of the event
loop (`normal`), calls `process.exit code`, or dies on an unhandled promise
rejection. -/
inductive Termination where
  | normal
  | exited (code : Nat)
  | unhandledRejection
deriving DecidableEq, Repr

/-- The exit code the operating system observes.  A normal drain of the
event loop exits 0; `process.exit c` exits `c`; Node (v15 and later, the
runtime used by these scripts) terminates an unhandled promise rejection
with exit code 1. -/
def exitCodeOf : Termination → Nat
  | .normal => 0
  | .exited c => c
  | .unhandledRejection => 1

namespace Wakatime

/- Model of the WakaTime gist script (the second compilation unit stored in
`src/scripts/vsco.ts`, lines 268 onward; `generateBarChart` is at lines
353-366). -/

/-- The nine fill glyphs of `const syms = "░▏▎▍▌▋▊▉█"`, as a list of
characters (each glyph is a single UTF-16 code unit in JavaScript, so
string indices in the source coincide with positions in this list). -/
def syms : List Char := ['░', '▏', '▎', '▍', '▌', '▋', '▊', '▉', '█']

/-- JavaScript `String.prototype.substring(a, b)` on a list of characters:
both indices are clamped into `[0, length]` and swapped when out of
order. -/
def jsSubstring (l : List Char) (a b : Int) : List Char :=
  let len : Int := l.length
  let lo := min (max a 0) len
  let hi := min (max b 0) len
  (l.take (max lo hi).toNat).drop (min lo hi).toNat

/-- JavaScript `String.prototype.padEnd(n, c)` for a single-character pad:
appends copies of `c` until the length reaches `n` (and does nothing when
the string is already at least that long). -/
def padEnd (l : List Char) (n : Nat) (c : Char) : List Char :=
  l ++ List.replicate (n - l.length) c

/-- The part of `generateBarChart` that runs after
`const frac = Math.floor((size * 8 * percent) / 100)` (`vsco.ts` lines
357-365): `Math.floor(frac / 8)` on the integer `frac` is `Int.fdiv`, and
the JavaScript `%` is `Int.tmod`.  (For a negative `percent`,
`"█".repeat(barsFull)` would throw in JavaScript; the model totalizes that
case with `Int.toNat`, which no claim exercises.) -/
def barFromFrac (frac : Int) (size : Nat) : List Char :=
  let barsFull : Int := Int.fdiv frac 8
  if barsFull ≥ (size : Int) then
    (List.replicate size (jsSubstring syms 8 9)).flatten
  else
    let semi : Int := Int.tmod frac 8
    padEnd ((List.replicate barsFull.toNat (jsSubstring syms 8 9)).flatten
        ++ jsSubstring syms semi (semi + 1)) size '░'

/-- `generateBarChart(percent, size)` from `vsco.ts` lines 353-366.
`percent` is a JavaScript number; it is modelled as a rational, which the
claims' inputs (finite decimals in `[0, 100]`) inhabit exactly. -/
def generateBarChart (percent : ℚ) (size : Nat) : List Char :=
  barFromFrac ⌊((size : ℚ) * 8 * percent) / 100⌋ size

/-- `trimRightStr(str, len)` from `vsco.ts` lines 303-306. -/
def trimRightStr (str : String) (len : Nat) : String :=
  if str.length > len then str.take (len - 3) ++ "..." else str

end Wakatime

namespace Lastfm

/- Model of `src/scripts/lastfm.ts`. -/

/-- The `artist` field of a Last.fm track: either a bare string or an
object with optional `name` and `'#text'` fields. -/
inductive ArtistField where
  | str (s : String)
  | obj (name : Option String) (text : Option String)
deriving DecidableEq, Repr

/-- A Last.fm track, reduced to the fields `formatTrack` reads.
`date` holds the parsed `date.uts` unix timestamp (present only for
finished tracks), `nowplaying` the raw `'@attr'.nowplaying` string. -/
structure LastfmTrack where
  artist : ArtistField
  name : String
  date : Option Int
  nowplaying : Option String
deriving DecidableEq, Repr

/-- JavaScript `a || b` for an optional string `a`: the default wins when
the field is absent or the empty string (both are falsy). -/
def jsOrDefault (a : Option String) (b : String) : String :=
  match a with
  | some s => if s = "" then b else s
  | none => b

/-- The artist display string (`lastfm.ts` lines 71-73):
`typeof artist === 'string' ? artist : (artist.name || artist['#text'] || 'Unknown Artist')`. -/
def trackArtistName (t : LastfmTrack) : String :=
  match t.artist with
  | .str s => s
  | .obj name text => jsOrDefault name (jsOrDefault text "Unknown Artist")

/-- `const name = track.name || 'Unknown Track'` (line 75). -/
def trackDisplayName (t : LastfmTrack) : String :=
  if t.name = "" then "Unknown Track" else t.name

/-- The truncation used for both names (lines 82-88):
`s.length > maxLen ? s.substring(0, maxLen - 3) + '...' : s`. -/
def truncateName (maxLen : Nat) (s : String) : String :=
  if s.length > maxLen then s.take (maxLen - 3) ++ "..." else s

/-- `getTimeAgo(timestamp)` (lines 103-115), with `Date.now()` passed in
explicitly as `now`. -/
def getTimeAgo (now timestamp : Int) : String :=
  let diff := now - timestamp
  let minutes := Int.fdiv diff 60000
  let hours := Int.fdiv diff 3600000
  let days := Int.fdiv diff 86400000
  if minutes < 1 then "just now"
  else if minutes < 60 then toString minutes ++ "m ago"
  else if hours < 24 then toString hours ++ "h ago"
  else toString days ++ "d ago"

/-- `formatTrack(track, index)` (lines 70-100), with the implicit
`Date.now()` made explicit.  The function computes `timeInfo` (the
now-playing marker or the relative-time string) but its return value uses
only the truncated track and artist names. -/
def formatTrack (now : Int) (track : LastfmTrack) (index : Nat) : String :=
  let artist := trackArtistName track
  let name := trackDisplayName track
  let isNowPlaying := track.nowplaying = some "true"
  let maxArtistLen := 20
  let maxTrackLen := 30
  let truncatedArtist := truncateName maxArtistLen artist
  let truncatedTrack := truncateName maxTrackLen name
  let timeInfo : String :=
    if isNowPlaying then "🎵 Now Playing"
    else match track.date with
      | some uts => getTimeAgo now (uts * 1000)
      | none => ""
  truncatedTrack ++ " - " ++ truncatedArtist

end Lastfm

namespace Instagram

/- Model of the Instagram script (`src/scripts/instagram.ts` lines 1-285). -/

/-- One entry of an `image_versions2.candidates` array. -/
structure Candidate where
  url : String
  width : Nat
  height : Nat
deriving DecidableEq, Repr

/-- An `image_versions2` object. -/
structure ImageVersions2 where
  candidates : List Candidate
deriving DecidableEq, Repr

/-- One entry of a `carousel_media` array, reduced to the field the
transformer reads. -/
structure CarouselMediaItem where
  image_versions2 : Option ImageVersions2
deriving DecidableEq, Repr

/-- A raw feed item, reduced to the fields `saveInstagramData` reads.
`caption` is the caption object's `text` when a caption object is present. -/
structure FeedItem where
  id : String
  taken_at : Int
  caption : Option String
  image_versions2 : Option ImageVersions2
  carousel_media : Option (List CarouselMediaItem)
deriving DecidableEq, Repr

/-- The simplified image record `{url, width, height}`. -/
structure SimpleImage where
  url : String
  width : Nat
  height : Nat
deriving DecidableEq, Repr

/-- The guard `x && x.candidates && x.candidates.length > 0` followed by
`x.candidates[0]`, used three times in `saveInstagramData`. -/
def firstCandidate (iv : Option ImageVersions2) : Option Candidate :=
  match iv with
  | some v => v.candidates.head?
  | none => none

/-- The image-extraction cascade of `saveInstagramData` (lines 147-168):
first the top-level `image_versions2.candidates[0]`, else the first
carousel entry's `image_versions2.candidates[0]`, else the defaults
`{'', 0, 0}`. -/
def itemImage (item : FeedItem) : SimpleImage :=
  match firstCandidate item.image_versions2 with
  | some image => ⟨image.url, image.width, image.height⟩
  | none =>
    match item.carousel_media with
    | some (firstMedia :: _) =>
      match firstCandidate firstMedia.image_versions2 with
      | some image => ⟨image.url, image.width, image.height⟩
      | none => ⟨"", 0, 0⟩
    | _ => ⟨"", 0, 0⟩

/-- The `carousel_media` list of the simplified item (lines 188-198):
first candidate of each carousel entry, entries without one dropped by
`.filter(Boolean)`. -/
def itemCarousel (item : FeedItem) : List SimpleImage :=
  match item.carousel_media with
  | some ms =>
    ms.filterMap (fun media =>
      (firstCandidate media.image_versions2).map (fun c => ⟨c.url, c.width, c.height⟩))
  | none => []

/-- The simplified record produced per feed item.  `timestamp` keeps the
raw `taken_at` epoch value; the source renders it as an ISO string, which
is presentation only. -/
structure SimpleItem where
  id : String
  timestamp : Int
  text : String
  image : SimpleImage
  carousel_media : List SimpleImage
deriving DecidableEq, Repr

/-- The per-item transform inside `saveInstagramData` (lines 147-200). -/
def simplifyItem (item : FeedItem) : SimpleItem :=
  { id := item.id
    timestamp := item.taken_at
    text := match item.caption with | some t => t | none => ""
    image := itemImage item
    carousel_media := itemCarousel item }

/-- `saveInstagramData` (lines 144-209), minus the file write: the
persisted JSON document is `data.map(simplify)`. -/
def saveInstagramData (data : List FeedItem) : List SimpleItem :=
  data.map simplifyItem

/- The filename regex of `getOriginalFilenameFromUrl` (lines 109-120):
`/\/([^\/]+_[^\/]+_[^\/]+_[^\/]+\.(webp|jpg|jpeg|png))/`.
JavaScript `String.match` without the `g` flag returns the leftmost match;
within a match attempt each greedy `[^\/]+` backtracks from the longest
run, and the alternation tries its branches left to right.  The matcher
below implements exactly that search order for this fixed pattern. -/

/-- Candidate lengths for one greedy `[^\/]+` at the head of `s`: the
length of the maximal slash-free run, down to 1. -/
def segLens (s : List Char) : List Nat :=
  (List.range (s.takeWhile (fun c => c ≠ '/')).length).reverse.map (fun n => n + 1)

/-- Ordered backtracking: try `f` on each candidate in turn, returning the
first success. -/
def firstSome (ns : List Nat) (f : Nat → Option Nat) : Option Nat :=
  match ns with
  | [] => none
  | n :: rest =>
    match f n with
    | some r => some r
    | none => firstSome rest f

/-- The alternation `(webp|jpg|jpeg|png)` at the head of `s`, branches in
source order; returns the number of characters consumed. -/
def extMatch (s : List Char) : Option Nat :=
  if List.isPrefixOf "webp".data s then some 4
  else if List.isPrefixOf "jpg".data s then some 3
  else if List.isPrefixOf "jpeg".data s then some 4
  else if List.isPrefixOf "png".data s then some 3
  else none

/-- `[^\/]+\.(webp|jpg|jpeg|png)` at the head of `s`. -/
def tailMatch (s : List Char) : Option Nat :=
  firstSome (segLens s) (fun l =>
    match s.drop l with
    | '.' :: rest => (extMatch rest).map (fun e => l + 1 + e)
    | _ => none)

/-- `[^\/]+_` followed by `tailMatch`. -/
def seg3Match (s : List Char) : Option Nat :=
  firstSome (segLens s) (fun l =>
    match s.drop l with
    | '_' :: rest => (tailMatch rest).map (fun r => l + 1 + r)
    | _ => none)

/-- `[^\/]+_` followed by `seg3Match`. -/
def seg2Match (s : List Char) : Option Nat :=
  firstSome (segLens s) (fun l =>
    match s.drop l with
    | '_' :: rest => (seg3Match rest).map (fun r => l + 1 + r)
    | _ => none)

/-- The capture group `[^\/]+_[^\/]+_[^\/]+_[^\/]+\.(webp|jpg|jpeg|png)`
at the head of `s`; returns the number of characters it spans. -/
def groupMatch (s : List Char) : Option Nat :=
  firstSome (segLens s) (fun l =>
    match s.drop l with
    | '_' :: rest => (seg2Match rest).map (fun r => l + 1 + r)
    | _ => none)

/-- Leftmost match of the whole regex: scan start positions left to right;
at a `/`, attempt the group on the characters after it, and on success
return the captured group (`match[1]`). -/
def findMatch : List Char → Option (List Char)
  | [] => none
  | c :: rest =>
    if c = '/' then
      match groupMatch rest with
      | some n => some (rest.take n)
      | none => findMatch rest
    else findMatch rest

/-- `getOriginalFilenameFromUrl(url)` (lines 109-120).  `now` is
`Date.now()` and `rand` is `Math.floor(Math.random() * 1000)`, the two
inputs of the fallback name `instagram_${now}_${rand}.jpg`. -/
def getOriginalFilenameFromUrl (url : String) (now rand : Nat) : String :=
  match findMatch url.data with
  | some g => String.mk g
  | none => "instagram_" ++ Nat.repr now ++ "_" ++ Nat.repr rand ++ ".jpg"

/-- `downloadImage(url)` (lines 122-141): fetch the URL as a stream and
pipe it to `photos/<filename>`.  There is no existence check, so the file
is fetched and (over)written regardless of the directory contents; a
rejected request or a stream error rejects the returned promise.  `disk`
is the set of filenames already in the photos directory; on success the
new state and the filename are returned. -/
def downloadImage (net : String → FetchResult) (disk : List String)
    (url : String) (now rand : Nat) : Except String (List String × String) :=
  let filename := getOriginalFilenameFromUrl url now rand
  match net url with
  | .ok => .ok (filename :: disk, filename)
  | .httpError => .error "request failed"
  | .failed => .error "stream error"

/-- `main` (lines 211-283) wraps the pipeline in `try/catch` and calls
`process.exit(1)` in the catch block; otherwise the process drains
normally. -/
def termination (pipelineFails : Bool) : Termination :=
  if pipelineFails then .exited 1 else .normal

end Instagram

/-- The footprints script (the second compilation unit stored in
`src/scripts/instagram.ts`): its `main` (lines 541-575) calls
`process.exit(1)` in its catch block. -/
def Footprints.termination (pipelineFails : Bool) : Termination :=
  if pipelineFails then .exited 1 else .normal

namespace NeoDB

/- Model of the NeoDB sync script (`src/unnamed/part_000`). -/

/-- A catalog item as returned inside a shelf entry (`part_000` lines
8-18).  `rating` is a JavaScript number, modelled as a rational;
`external_resources` is an opaque JSON payload the script never inspects,
modelled as a string. -/
structure NeoDBItem where
  title : String
  description : String
  category : String
  itemType : String
  uuid : String
  rating : ℚ
  rating_count : Nat
  cover_image_url : String
  external_resources : String
deriving DecidableEq, Repr

/-- One element of a response's `data` array (lines 20-27).
`created_time` is an ISO date string in the source; it is modelled as the
epoch value `new Date(created_time).getTime()` that the sort comparator
computes from it. -/
structure ShelfEntry where
  item : NeoDBItem
  created_time : Int
deriving DecidableEq, Repr

/-- One paginated API response (lines 20-27). -/
structure NeoDBResponse where
  data : List ShelfEntry
  pages : Nat
  count : Nat
deriving DecidableEq, Repr

/-- The flattened, cleaned record (lines 29-40). -/
structure CleanNeoDBItem where
  title : String
  description : String
  category : String
  itemType : String
  uuid : String
  rating : ℚ
  rating_count : Nat
  cover_image_url : String
  external_resources : String
  created_time : Int
deriving DecidableEq, Repr

/-- The persisted document `neodb.json` (lines 42-46). -/
structure CleanNeoDBData where
  data : List CleanNeoDBItem
  total_count : Nat
  last_updated : String
deriving DecidableEq, Repr

/-- The first-page responses of the four categories (lines 48-53). -/
structure CategoryData where
  movies : NeoDBResponse
  tv : NeoDBResponse
  books : NeoDBResponse
  games : NeoDBResponse
deriving DecidableEq, Repr

/-- `calculateRemoteCount` (lines 99-101). -/
def calculateRemoteCount (data : CategoryData) : Nat :=
  data.movies.count + data.tv.count + data.books.count + data.games.count

/-- `getCurrentCount` (lines 86-96): `json.data?.length || 0` on the
persisted document, 0 when the file is missing or unreadable (`none`). -/
def getCurrentCount (localDoc : Option CleanNeoDBData) : Nat :=
  match localDoc with
  | some json => json.data.length
  | none => 0

/-- The sort order of line 123,
`(a, b) => new Date(b.created_time).getTime() - new Date(a.created_time).getTime()`:
`a` may precede `b` exactly when the comparator is non-positive, i.e. when
`b`'s time is at most `a`'s (descending, newest first). -/
def descRel (a b : ShelfEntry) : Prop := b.created_time ≤ a.created_time

instance : DecidableRel descRel := fun a b => Int.decLe b.created_time a.created_time

instance : IsTotal ShelfEntry descRel :=
  ⟨fun a b => le_total b.created_time a.created_time⟩

instance : IsTrans ShelfEntry descRel :=
  ⟨fun _ _ _ hab hbc => le_trans hbc hab⟩

/-- The de-duplication filter of lines 126-128:
`data.filter((item, index, self) => index === self.findIndex(t => t.item.uuid === item.item.uuid))`. -/
def jsDedupByUuid (l : List ShelfEntry) : List ShelfEntry :=
  (l.enum.filter (fun p =>
    l.findIdx (fun t => t.item.uuid == p.2.item.uuid) == p.1)).map Prod.snd

/-- The flattening map of lines 131-142: copy the item fields and attach
the entry's `created_time`. -/
def cleanEntry (e : ShelfEntry) : CleanNeoDBItem :=
  { title := e.item.title
    description := e.item.description
    category := e.item.category
    itemType := e.item.itemType
    uuid := e.item.uuid
    rating := e.item.rating
    rating_count := e.item.rating_count
    cover_image_url := e.item.cover_image_url
    external_resources := e.item.external_resources
    created_time := e.created_time }

/-- The merged page data (the `reduce` of lines 117-120 concatenates the
pages' `data` arrays in order) after the in-place descending sort of line
123.  JavaScript `Array.prototype.sort` is a stable sort; the model uses
insertion sort, which is also stable, so it produces the same list for
this comparator. -/
def sortedMergedData (allData : List NeoDBResponse) : List ShelfEntry :=
  ((allData.map (fun r => r.data)).flatten).insertionSort descRel

/-- `mergeAndCleanData(allData)` (lines 116-149).  `nowIso` is the
`new Date().toISOString()` stamp. -/
def mergeAndCleanData (nowIso : String) (allData : List NeoDBResponse) : CleanNeoDBData :=
  let uniqueData := jsDedupByUuid (sortedMergedData allData)
  let cleanData := uniqueData.map cleanEntry
  { data := cleanData
    total_count := cleanData.length
    last_updated := nowIso }

/-- `extractCategoryData` (lines 152-166): the category-split files drop
`created_time` again. -/
def extractCategoryData (mergedData : CleanNeoDBData) (category : String) : List NeoDBItem :=
  (mergedData.data.filter (fun item => item.category == category)).map
    (fun item =>
      { title := item.title
        description := item.description
        category := item.category
        itemType := item.itemType
        uuid := item.uuid
        rating := item.rating
        rating_count := item.rating_count
        cover_image_url := item.cover_image_url
        external_resources := item.external_resources })

/-- Node `path.basename`: trailing slashes are dropped, then everything
after the last remaining slash is returned (`'/'` for an all-slash path,
`''` for the empty path). -/
def basename (p : String) : String :=
  let cs := p.data
  let trimmed := (cs.reverse.dropWhile (fun c => c = '/')).reverse
  if trimmed.isEmpty then (if cs.isEmpty then "" else "/")
  else String.mk ((trimmed.reverse.takeWhile (fun c => c ≠ '/')).reverse)

/-- JavaScript `String.prototype.trim`: strip whitespace from both ends
(implemented on the character list so that it evaluates inside the
kernel). -/
def jsTrim (s : String) : String :=
  String.mk (((s.data.dropWhile Char.isWhitespace).reverse.dropWhile
    Char.isWhitespace).reverse)

/-- The URL list of `downloadCoverImages` (lines 181-183):
`data.map(item => item.cover_image_url).filter(url => url && url.trim() !== '')`. -/
def validCoverUrls (data : List CleanNeoDBItem) : List String :=
  (data.map (fun item => item.cover_image_url)).filter
    (fun url => !(url == "") && !(jsTrim url == ""))

/-- The state of the cover directory during a run: the filenames on disk
and the filenames written by this run, in order. -/
structure CoverState where
  disk : List String
  downloaded : List String
deriving DecidableEq, Repr

/-- One iteration of the download loop of `downloadCoverImages` (lines
187-214): skip when `fs.access` finds the file; otherwise fetch — a non-ok
response or a thrown error is logged and the loop continues, a success
writes the file. -/
def coverStep (net : String → FetchResult) (st : CoverState) (url : String) : CoverState :=
  let filename := basename url
  if filename ∈ st.disk then st
  else
    match net url with
    | .ok => { disk := filename :: st.disk, downloaded := st.downloaded ++ [filename] }
    | _ => st

/-- `downloadCoverImages(mergedData)` (lines 169-215): every error path of
the loop body is caught inside the loop, so the routine always runs to
completion and returns the final directory state. -/
def downloadCoverImages (net : String → FetchResult) (disk : List String)
    (data : List CleanNeoDBItem) : CoverState :=
  (validCoverUrls data).foldl (coverStep net) { disk := disk, downloaded := [] }

/-- The page requests `downloadAllPages` issues for one category (lines
104-113): pages 1 through `pages`. -/
def downloadAllPagesReq (category : String) (pages : Nat) : List (String × Nat) :=
  (List.range pages).map (fun i => (category, i + 1))

/-- The responses `downloadAllPages` collects for one category. -/
def downloadAllPages (pageFetch : String → Nat → NeoDBResponse)
    (category : String) (pages : Nat) : List NeoDBResponse :=
  (List.range pages).map (fun i => pageFetch category (i + 1))

/-- The observable outcome of one `syncNeoDBData` run: the page fetches
issued after the initial count check, the JSON files written, the cover
directory state, the persisted document afterwards, and whether the
promise resolved. -/
structure SyncResult where
  pageFetches : List (String × Nat)
  writtenFiles : List String
  coverState : CoverState
  finalDoc : Option CleanNeoDBData
  ok : Bool
deriving Repr

/-- `syncNeoDBData` (lines 223-293) after the four first-page fetches of
`getInitialData`: compare the remote count with the local count and stop
when they are equal; otherwise fetch every page of every category, merge,
write `neodb.json` and the four category files, and download the cover
images.  `pageFetch` is the network, `disk` the cover directory, `localDoc`
the persisted document, `nowIso` the timestamp. -/
def syncNeoDBData (initialData : CategoryData) (localDoc : Option CleanNeoDBData)
    (pageFetch : String → Nat → NeoDBResponse) (net : String → FetchResult)
    (disk : List String) (nowIso : String) : SyncResult :=
  let remoteCount := calculateRemoteCount initialData
  let currentCount := getCurrentCount localDoc
  if remoteCount = currentCount then
    { pageFetches := []
      writtenFiles := []
      coverState := { disk := disk, downloaded := [] }
      finalDoc := localDoc
      ok := true }
  else
    let allData :=
      downloadAllPages pageFetch "movie" initialData.movies.pages
        ++ downloadAllPages pageFetch "tv" initialData.tv.pages
        ++ downloadAllPages pageFetch "book" initialData.books.pages
        ++ downloadAllPages pageFetch "game" initialData.games.pages
    let mergedData := mergeAndCleanData nowIso allData
    { pageFetches :=
        downloadAllPagesReq "movie" initialData.movies.pages
          ++ downloadAllPagesReq "tv" initialData.tv.pages
          ++ downloadAllPagesReq "book" initialData.books.pages
          ++ downloadAllPagesReq "game" initialData.games.pages
      writtenFiles :=
        ["neodb/neodb.json", "neodb/book.json", "neodb/game.json",
         "neodb/tv.json", "neodb/movie.json"]
      coverState := downloadCoverImages net disk mergedData.data
      finalDoc := some mergedData
      ok := true }

/-- The entry point of `part_000` (lines 301-304) is
`syncNeoDBData().catch(console.error)`: a rejection of the sync promise is
handled by logging it, so the process drains the event loop and exits
normally whether or not the sync failed. -/
def termination (syncFails : Bool) : Termination :=
  match syncFails with
  | true => .normal
  | false => .normal

end NeoDB

namespace Vsco

/- Model of the VSCO script (`src/scripts/vsco.ts` lines 1-267). -/

/-- A fetched photo, reduced to the fields `downloadImages` reads. -/
structure VSCOPhoto where
  id : String
  src : String
deriving DecidableEq, Repr

/-- The destination filename of a photo (line 169): `${photo.id}.jpg`. -/
def photoFileName (photo : VSCOPhoto) : String := photo.id ++ ".jpg"

/-- The state of the images directory during a `downloadImages` run:
filenames on disk, the sources attempted, the filenames written, and the
sources skipped with a warning. -/
structure VscoDownloadState where
  disk : List String
  attempted : List String
  downloaded : List String
  warned : List String
deriving DecidableEq, Repr

/-- One photo's download (lines 168-180): the download is attempted
unconditionally — there is no check for an existing file — and a failure
of `downloadImage` is caught and logged as a skip, after which the run
continues. -/
def vscoStep (net : String → FetchResult) (st : VscoDownloadState)
    (photo : VSCOPhoto) : VscoDownloadState :=
  let fileName := photoFileName photo
  let st := { st with attempted := st.attempted ++ [photo.src] }
  match net photo.src with
  | .ok => { st with disk := fileName :: st.disk, downloaded := st.downloaded ++ [fileName] }
  | _ => { st with warned := st.warned ++ [photo.src] }

/-- `downloadImages(photos, outputDir)` (lines 158-189). -/
def downloadImages (net : String → FetchResult) (disk : List String)
    (photos : List VSCOPhoto) : VscoDownloadState :=
  photos.foldl (vscoStep net) { disk := disk, attempted := [], downloaded := [], warned := [] }

/-- The promise returned by `downloadImages`: every per-photo error is
caught inside the `map` callback (lines 175-179), so the `Promise.all` of
line 182 never rejects and the routine always resolves. -/
def downloadImagesOutcome (net : String → FetchResult) (disk : List String)
    (photos : List VSCOPhoto) : Except String VscoDownloadState :=
  .ok (downloadImages net disk photos)

/-- `main` (lines 227-262) calls `process.exit(1)` in its catch block. -/
def termination (pipelineFails : Bool) : Termination :=
  if pipelineFails then .exited 1 else .normal

end Vsco

/-- The WakaTime script's endings: a failure of `getMyStats` rejects
`main()` (line 370 `main();` has no catch), killing the process as an
unhandled rejection; `updateGist` (`vsco.ts` lines 308-351) catches both
the gist read error and the gist update error itself and returns, so a
gist failure still drains normally. -/
def Wakatime.termination (statsFail gistFail : Bool) : Termination :=
  if statsFail then .unhandledRejection else .normal

/-- The Last.fm script's ending: `main()` (lastfm.ts line 214) has no
top-level catch and `main` rethrows (lines 206-209), so a pipeline error
kills the process as an unhandled rejection; otherwise it drains
normally. -/
def Lastfm.termination (pipelineFails : Bool) : Termination :=
  if pipelineFails then .unhandledRejection else .normal

/-- The Hitokoto scripts' ending (`src/unnamed/part_001` lines 93-103 and
`part_002`): `main` calls `process.exit(1)` in its catch block. -/
def Hitokoto.termination (pipelineFails : Bool) : Termination :=
  if pipelineFails then .exited 1 else .normal

/-- C8: the bar-chart generator renders the empty and the full bar
exactly: `generateBarChart(0, 21)` is 21 copies of the lowest fill glyph
`░`, and `generateBarChart(100, 21)` is 21 copies of the highest fill
glyph `█`. -/
theorem c8_barChartEnds :
    Wakatime.generateBarChart 0 21 = List.replicate 21 '░' ∧
    Wakatime.generateBarChart 100 21 = List.replicate 21 '█' := by
  constructor
  · have h : (⌊(((21 : Nat) : ℚ) * 8 * 0) / 100⌋ : Int) = 0 := by norm_num
    unfold Wakatime.generateBarChart
    rw [h]
    decide
  · have h : (⌊(((21 : Nat) : ℚ) * 8 * 100) / 100⌋ : Int) = 168 := by norm_num
    unfold Wakatime.generateBarChart
    rw [h]
    decide

/-- C3 counterexample: a NeoDB run whose sync stage raises an error still
terminates with exit code 0, not 1 — the entry point is
`syncNeoDBData().catch(console.error)`, which handles the rejection by
logging it; likewise a WakaTime run whose gist update fails exits 0,
because `updateGist` catches its own errors.  This contradicts the claim
that every errored run exits 1 and that no error path ends with a
successful exit code. -/
theorem c3_counterexample :
    exitCodeOf (NeoDB.termination true) = 0 ∧
    exitCodeOf (Wakatime.termination false true) = 0 := by decide

/-- C3 (amended): the Instagram, VSCO, Hitokoto and footprints scripts
exit 1 when a pipeline stage errors and 0 otherwise, and the Last.fm
script dies with exit code 1 via an unhandled rejection; but the NeoDB
script exits 0 even when the sync fails (its rejection is handled by
`console.error`), and the WakaTime script exits 0 when only its gist
read/update fails (`updateGist` swallows those errors), dying with code 1
only when the stats fetch rejects. -/
theorem c3_exitCodes :
    (∀ b : Bool, exitCodeOf (Instagram.termination b) = if b then 1 else 0) ∧
    (∀ b : Bool, exitCodeOf (Vsco.termination b) = if b then 1 else 0) ∧
    (∀ b : Bool, exitCodeOf (Hitokoto.termination b) = if b then 1 else 0) ∧
    (∀ b : Bool, exitCodeOf (Footprints.termination b) = if b then 1 else 0) ∧
    (∀ b : Bool, exitCodeOf (Lastfm.termination b) = if b then 1 else 0) ∧
    (∀ b : Bool, exitCodeOf (NeoDB.termination b) = 0) ∧
    (∀ g : Bool, exitCodeOf (Wakatime.termination false g) = 0) ∧
    (∀ g : Bool, exitCodeOf (Wakatime.termination true g) = 1) := by decide

/-- C4: when the freshly fetched remote total (the sum of the four
category counts) equals the entry count of the persisted document, the
NeoDB sync returns early and successfully: it fetches no pages, writes no
file, downloads no cover, and leaves the persisted document unchanged. -/
theorem c4_incrementalSkip :
    ∀ (initialData : NeoDB.CategoryData) (localDoc : Option NeoDB.CleanNeoDBData)
      (pageFetch : String → Nat → NeoDB.NeoDBResponse) (net : String → FetchResult)
      (disk : List String) (nowIso : String),
      NeoDB.calculateRemoteCount initialData = NeoDB.getCurrentCount localDoc →
      NeoDB.syncNeoDBData initialData localDoc pageFetch net disk nowIso =
        { pageFetches := []
          writtenFiles := []
          coverState := { disk := disk, downloaded := [] }
          finalDoc := localDoc
          ok := true } := by
  intro initialData localDoc pageFetch net disk nowIso h
  unfold NeoDB.syncNeoDBData
  rw [if_pos h]

/-- C4 witness: a concrete skip run — empty local document, remote counts
all zero. -/
theorem c4_witness :
    NeoDB.syncNeoDBData
        ⟨⟨[], 0, 0⟩, ⟨[], 0, 0⟩, ⟨[], 0, 0⟩, ⟨[], 0, 0⟩⟩
        (some ⟨[], 0, "t0"⟩)
        (fun _ _ => ⟨[], 0, 0⟩) (fun _ => .ok) ["old.jpg"] "t1" =
      { pageFetches := []
        writtenFiles := []
        coverState := { disk := ["old.jpg"], downloaded := [] }
        finalDoc := some ⟨[], 0, "t0"⟩
        ok := true } :=
  c4_incrementalSkip _ _ _ _ _ _ (by decide)

/-- C6: the transformer extracts the first image candidate from both
shapes — an item with a non-empty top-level `image_versions2.candidates`
gets `candidates[0]`'s url/width/height, and an item without a top-level
candidate whose first carousel entry has a non-empty candidate list gets
that nested first candidate's url/width/height. -/
theorem c6_imageExtraction :
    (∀ (item : Instagram.FeedItem) (v : Instagram.ImageVersions2)
       (c : Instagram.Candidate) (rest : List Instagram.Candidate),
       item.image_versions2 = some v → v.candidates = c :: rest →
       (Instagram.simplifyItem item).image = ⟨c.url, c.width, c.height⟩) ∧
    (∀ (item : Instagram.FeedItem) (m : Instagram.CarouselMediaItem)
       (ms : List Instagram.CarouselMediaItem) (v : Instagram.ImageVersions2)
       (c : Instagram.Candidate) (rest : List Instagram.Candidate),
       Instagram.firstCandidate item.image_versions2 = none →
       item.carousel_media = some (m :: ms) →
       m.image_versions2 = some v → v.candidates = c :: rest →
       (Instagram.simplifyItem item).image = ⟨c.url, c.width, c.height⟩) := by
  constructor
  · intro item v c rest hiv hc
    simp [Instagram.simplifyItem, Instagram.itemImage, Instagram.firstCandidate, hiv, hc]
  · intro item m ms v c rest hnone hcar hmv hc
    simp only [Instagram.simplifyItem, Instagram.itemImage, hnone, hcar]
    simp [Instagram.firstCandidate, hmv, hc]

/-- C6 witness: one item of each shape. -/
theorem c6_witness :
    (Instagram.simplifyItem ⟨"1", 0, none, some ⟨[⟨"u", 2, 3⟩]⟩, none⟩).image =
        ⟨"u", 2, 3⟩ ∧
    (Instagram.simplifyItem
        ⟨"2", 0, none, none, some [⟨some ⟨[⟨"v", 4, 5⟩]⟩⟩]⟩).image = ⟨"v", 4, 5⟩ :=
  ⟨c6_imageExtraction.1 ⟨"1", 0, none, some ⟨[⟨"u", 2, 3⟩]⟩, none⟩ ⟨[⟨"u", 2, 3⟩]⟩
      ⟨"u", 2, 3⟩ [] rfl rfl,
   c6_imageExtraction.2 ⟨"2", 0, none, none, some [⟨some ⟨[⟨"v", 4, 5⟩]⟩⟩]⟩
      ⟨some ⟨[⟨"v", 4, 5⟩]⟩⟩ [] ⟨[⟨"v", 4, 5⟩]⟩ ⟨"v", 4, 5⟩ [] rfl rfl rfl rfl⟩

/-- C9: `formatTrack` ignores the timestamp, the now-playing flag and the
index — two tracks agreeing on `name` and `artist` format identically for
any clock values and indices, and the returned line is always the
truncated track name, a `' - '` separator, and the truncated artist name
(the `timeInfo` string computed inside never reaches the output). -/
theorem c9_formatTrackIgnoresTime :
    (∀ (now1 now2 : Int) (t1 t2 : Lastfm.LastfmTrack) (i1 i2 : Nat),
       t1.name = t2.name → t1.artist = t2.artist →
       Lastfm.formatTrack now1 t1 i1 = Lastfm.formatTrack now2 t2 i2) ∧
    (∀ (now : Int) (t : Lastfm.LastfmTrack) (i : Nat),
       Lastfm.formatTrack now t i =
         Lastfm.truncateName 30 (Lastfm.trackDisplayName t) ++ " - " ++
           Lastfm.truncateName 20 (Lastfm.trackArtistName t)) := by
  constructor
  · intro now1 now2 t1 t2 i1 i2 hn ha
    have h1 : Lastfm.trackDisplayName t1 = Lastfm.trackDisplayName t2 := by
      unfold Lastfm.trackDisplayName
      rw [hn]
    have h2 : Lastfm.trackArtistName t1 = Lastfm.trackArtistName t2 := by
      unfold Lastfm.trackArtistName
      rw [ha]
    simp only [Lastfm.formatTrack, h1, h2]
  · intro now t i
    rfl

/-- C9 witness: a now-playing track and a dated track with the same name
and artist format identically under different clocks and indices. -/
theorem c9_witness :
    Lastfm.formatTrack 0 ⟨.str "The Beatles", "Yesterday", some 1700000000, some "true"⟩ 0 =
    Lastfm.formatTrack 99999 ⟨.str "The Beatles", "Yesterday", none, none⟩ 7 :=
  c9_formatTrackIgnoresTime.1 0 99999 _ _ 0 7 rfl rfl
/-- Helper: each cover-loop step only adds the url's basename to the
downloads, and only when that basename was not on disk. -/
theorem coverStep_downloaded_mem (net : String → FetchResult)
    (st : NeoDB.CoverState) (u : String) :
    ∀ g ∈ (NeoDB.coverStep net st u).downloaded,
      g ∈ st.downloaded ∨ (g = NeoDB.basename u ∧ NeoDB.basename u ∉ st.disk) := by
  intro g hg
  rw [NeoDB.coverStep] at hg
  by_cases hmem : NeoDB.basename u ∈ st.disk
  · rw [if_pos hmem] at hg
    exact Or.inl hg
  · rw [if_neg hmem] at hg
    cases hnet : net u
    · rw [hnet] at hg
      simp only [List.mem_append, List.mem_singleton] at hg
      rcases hg with hg | hg
      · exact Or.inl hg
      · exact Or.inr ⟨hg, hmem⟩
    · rw [hnet] at hg
      exact Or.inl hg
    · rw [hnet] at hg
      exact Or.inl hg

/-- Helper: a cover-loop step never removes files from the directory. -/
theorem coverStep_disk_mono (net : String → FetchResult)
    (st : NeoDB.CoverState) (u : String) :
    st.disk ⊆ (NeoDB.coverStep net st u).disk := by
  rw [NeoDB.coverStep]
  by_cases hmem : NeoDB.basename u ∈ st.disk
  · rw [if_pos hmem]
    exact fun g hg => hg
  · rw [if_neg hmem]
    cases hnet : net u
    · exact fun g hg => List.mem_cons_of_mem _ hg
    · exact fun g hg => hg
    · exact fun g hg => hg

/-- Helper: the cover-loop fold never downloads a file that was on disk
when the run started. -/
theorem coverFold_not_on_disk (net : String → FetchResult) (disk0 : List String) :
    ∀ (urls : List String) (st : NeoDB.CoverState),
      (∀ f ∈ st.downloaded, f ∉ disk0) → disk0 ⊆ st.disk →
      ∀ f ∈ (urls.foldl (NeoDB.coverStep net) st).downloaded, f ∉ disk0 := by
  intro urls
  induction urls with
  | nil => intro st h1 _ f hf; exact h1 f hf
  | cons u rest ih =>
    intro st h1 h2 f hf
    refine ih (NeoDB.coverStep net st u) ?_
      (fun g hg => coverStep_disk_mono net st u (h2 hg)) f hf
    intro g hg
    rcases coverStep_downloaded_mem net st u g hg with hg' | ⟨rfl, hnd⟩
    · exact h1 g hg'
    · exact fun hin => hnd (h2 hin)

/-- Helper: a cover-loop step is a no-op when the fetch does not succeed. -/
theorem coverStep_of_fail (net : String → FetchResult) (st : NeoDB.CoverState)
    (u : String) (h : net u ≠ .ok) : NeoDB.coverStep net st u = st := by
  rw [NeoDB.coverStep]
  by_cases hmem : NeoDB.basename u ∈ st.disk
  · rw [if_pos hmem]
  · rw [if_neg hmem]
    cases hnet : net u
    · exact absurd hnet h
    · rfl
    · rfl

/-- Helper: every VSCO photo is attempted, independent of the directory
contents. -/
theorem vscoFold_attempted (net : String → FetchResult) :
    ∀ (photos : List Vsco.VSCOPhoto) (st : Vsco.VscoDownloadState),
      (photos.foldl (Vsco.vscoStep net) st).attempted =
        st.attempted ++ photos.map (fun p => p.src) := by
  intro photos
  induction photos with
  | nil => intro st; simp
  | cons p rest ih =>
    intro st
    rw [List.foldl_cons, ih]
    cases hnet : net p.src <;> simp [Vsco.vscoStep, hnet]

/-- Helper: the VSCO loop downloads exactly the photos whose fetch
succeeds, in order. -/
theorem vscoFold_downloaded (net : String → FetchResult) :
    ∀ (photos : List Vsco.VSCOPhoto) (st : Vsco.VscoDownloadState),
      (photos.foldl (Vsco.vscoStep net) st).downloaded =
        st.downloaded ++ (photos.filter (fun p => net p.src == .ok)).map Vsco.photoFileName := by
  intro photos
  induction photos with
  | nil => intro st; simp
  | cons p rest ih =>
    intro st
    rw [List.foldl_cons, ih]
    cases hnet : net p.src <;> simp [Vsco.vscoStep, hnet, beq_iff_eq]

/-- C1 counterexample: the VSCO image-download step re-downloads a file
that is already present — with `p1.jpg` on disk and a photo whose id is
`p1`, the run writes `p1.jpg` again (`downloadImages` has no existence
check), so the claim that every script's download routine skips existing
files is false. -/
theorem c1_counterexample :
    "p1.jpg" ∈ (Vsco.downloadImages (fun _ => .ok) ["p1.jpg"]
        [{ id := "p1", src := "https://img.vsco/p1" }]).downloaded ∧
    "p1.jpg" ∈ (["p1.jpg"] : List String) := by decide

/-- C1 (amended): only the NeoDB cover routine checks for an existing
file — it never downloads a file already present at the start of the run
(so a second run over the same directory re-downloads nothing and
completes); the VSCO routine attempts every photo regardless of the
directory contents, and the Instagram routine fetches and writes
unconditionally whenever the request succeeds. -/
theorem c1_downloadIdempotence :
    (∀ (net : String → FetchResult) (disk : List String) (data : List NeoDB.CleanNeoDBItem),
       ∀ f ∈ (NeoDB.downloadCoverImages net disk data).downloaded, f ∉ disk) ∧
    (∀ (net : String → FetchResult) (disk : List String) (photos : List Vsco.VSCOPhoto),
       (Vsco.downloadImages net disk photos).attempted = photos.map (fun p => p.src)) ∧
    (∀ (net : String → FetchResult) (disk : List String) (url : String) (now rand : Nat),
       net url = .ok →
       Instagram.downloadImage net disk url now rand =
         .ok (Instagram.getOriginalFilenameFromUrl url now rand :: disk,
              Instagram.getOriginalFilenameFromUrl url now rand)) := by
  refine ⟨?_, ?_, ?_⟩
  · intro net disk data
    exact coverFold_not_on_disk net disk (NeoDB.validCoverUrls data)
      { disk := disk, downloaded := [] } (by intro f hf; simp at hf) (fun g hg => hg)
  · intro net disk photos
    rw [Vsco.downloadImages, vscoFold_attempted]
    simp
  · intro net disk url now rand h
    rw [Instagram.downloadImage, h]

/-- C1 witness: a NeoDB run that downloads `x.jpg` (absent before), a
VSCO run attempting its one photo, and an Instagram download onto a
directory that already holds the target filename. -/
theorem c1_witness :
    ("x.jpg" ∉ (["present.jpg"] : List String)) ∧
    (Vsco.downloadImages (fun _ => .ok) ["present.jpg"]
        [{ id := "p", src := "s1" }]).attempted = ["s1"] ∧
    Instagram.downloadImage (fun _ => .ok) ["instagram_1_2.jpg"] "nomatch" 1 2 =
      .ok (Instagram.getOriginalFilenameFromUrl "nomatch" 1 2 :: ["instagram_1_2.jpg"],
           Instagram.getOriginalFilenameFromUrl "nomatch" 1 2) := by
  refine ⟨?_, ?_, c1_downloadIdempotence.2.2 _ _ _ 1 2 rfl⟩
  · exact c1_downloadIdempotence.1 (fun _ => .ok) ["present.jpg"]
      [⟨"t", "d", "movie", "m", "u1", 0, 0, "http://host/x.jpg", "e", 0⟩] "x.jpg" (by decide)
  · have h := c1_downloadIdempotence.2.1 (fun _ => .ok) ["present.jpg"]
      [{ id := "p", src := "s1" }]
    rw [h]
    rfl

/-- C2 counterexample: a VSCO run in which the single photo's byte stream
errors still resolves — the failure is logged as a warning and the sync
run continues, so the claim that a stream error fails the overall run is
false. -/
theorem c2_counterexample :
    Vsco.downloadImagesOutcome (fun _ => .failed) []
        [{ id := "p1", src := "https://img.vsco/p1" }] =
      .ok { disk := [], attempted := ["https://img.vsco/p1"], downloaded := [],
            warned := ["https://img.vsco/p1"] } := rfl

/-- C2 (amended): only the Instagram script propagates an image-stream
error (its `downloadImage` rejects, failing the run); the VSCO download
stage always resolves, downloading exactly the photos whose fetch
succeeds and warning on the rest; and the NeoDB cover loop catches every
per-image error — even when every fetch fails it completes with the
directory unchanged. -/
theorem c2_streamErrorPropagation :
    (∀ (net : String → FetchResult) (disk : List String) (url : String) (now rand : Nat),
       net url = .failed →
       Instagram.downloadImage net disk url now rand = .error "stream error") ∧
    (∀ (net : String → FetchResult) (disk : List String) (photos : List Vsco.VSCOPhoto),
       Vsco.downloadImagesOutcome net disk photos = .ok (Vsco.downloadImages net disk photos) ∧
       (Vsco.downloadImages net disk photos).downloaded =
         (photos.filter (fun p => net p.src == .ok)).map Vsco.photoFileName) ∧
    (∀ (net : String → FetchResult) (disk : List String) (data : List NeoDB.CleanNeoDBItem),
       (∀ u, net u ≠ .ok) →
       NeoDB.downloadCoverImages net disk data = { disk := disk, downloaded := [] }) := by
  refine ⟨?_, ?_, ?_⟩
  · intro net disk url now rand h
    rw [Instagram.downloadImage, h]
  · intro net disk photos
    refine ⟨rfl, ?_⟩
    rw [Vsco.downloadImages, vscoFold_downloaded]
    simp
  · intro net disk data h
    rw [NeoDB.downloadCoverImages]
    have : ∀ (urls : List String) (st : NeoDB.CoverState),
        urls.foldl (NeoDB.coverStep net) st = st := by
      intro urls
      induction urls with
      | nil => intro st; rfl
      | cons u rest ih => intro st; rw [List.foldl_cons, coverStep_of_fail net st u (h u), ih]
    rw [this]

/-- C2 witness: an Instagram stream error rejects; a VSCO run with one
failing and one succeeding photo downloads exactly the succeeding one; a
NeoDB run in which every fetch fails leaves the directory unchanged. -/
theorem c2_witness :
    Instagram.downloadImage (fun _ => .failed) [] "u" 3 4 = .error "stream error" ∧
    (Vsco.downloadImages (fun s => if s == "sa" then .failed else .ok) []
        [{ id := "a", src := "sa" }, { id := "b", src := "sb" }]).downloaded = ["b.jpg"] ∧
    NeoDB.downloadCoverImages (fun _ => .failed) ["d.jpg"]
        [⟨"t", "d", "movie", "m", "u1", 0, 0, "http://host/c.jpg", "e", 0⟩] =
      { disk := ["d.jpg"], downloaded := [] } := by
  refine ⟨c2_streamErrorPropagation.1 _ _ _ 3 4 rfl, ?_,
    c2_streamErrorPropagation.2.2 _ _ _ (fun u h => FetchResult.noConfusion h)⟩
  have h := (c2_streamErrorPropagation.2.1 (fun s => if s == "sa" then .failed else .ok) []
      [⟨"a", "sa"⟩, ⟨"b", "sb"⟩]).2
  rw [h]
  decide
/-- Helper: `Nat.digitChar` never yields a path separator. -/
theorem digitChar_ne_slash (n : Nat) : Nat.digitChar n ≠ '/' := by
  by_cases h : n < 16
  · interval_cases n <;> decide
  · unfold Nat.digitChar
    rw [if_neg (show ¬ n = 0 by omega), if_neg (show ¬ n = 1 by omega),
      if_neg (show ¬ n = 2 by omega), if_neg (show ¬ n = 3 by omega),
      if_neg (show ¬ n = 4 by omega), if_neg (show ¬ n = 5 by omega),
      if_neg (show ¬ n = 6 by omega), if_neg (show ¬ n = 7 by omega),
      if_neg (show ¬ n = 8 by omega), if_neg (show ¬ n = 9 by omega),
      if_neg (show ¬ n = 10 by omega), if_neg (show ¬ n = 11 by omega),
      if_neg (show ¬ n = 12 by omega), if_neg (show ¬ n = 13 by omega),
      if_neg (show ¬ n = 14 by omega), if_neg (show ¬ n = 15 by omega)]
    decide

/-- Helper: `Nat.toDigitsCore` only prepends digit characters, so it
preserves slash-freeness of the accumulator. -/
theorem toDigitsCore_ne_slash :
    ∀ (fuel n : Nat) (acc : List Char), (∀ c ∈ acc, c ≠ '/') →
      ∀ c ∈ Nat.toDigitsCore 10 fuel n acc, c ≠ '/' := by
  intro fuel
  induction fuel with
  | zero =>
    intro n acc hacc c hc
    rw [Nat.toDigitsCore] at hc
    exact hacc c hc
  | succ f ih =>
    intro n acc hacc c hc
    rw [Nat.toDigitsCore] at hc
    have hacc' : ∀ c ∈ Nat.digitChar (n % 10) :: acc, c ≠ '/' := by
      intro c hc'
      rcases List.mem_cons.mp hc' with rfl | hmem
      · exact digitChar_ne_slash _
      · exact hacc c hmem
    split at hc
    · exact hacc' c hc
    · exact ih _ _ hacc' c hc

/-- Helper: the decimal rendering of a natural number contains no
slash. -/
theorem natRepr_ne_slash (n : Nat) : ∀ c ∈ (Nat.repr n).data, c ≠ '/' := by
  intro c hc
  have hd : (Nat.repr n).data = Nat.toDigitsCore 10 (n + 1) n [] := rfl
  rw [hd] at hc
  exact toDigitsCore_ne_slash _ _ _ (by intro c h; cases h) c hc

/-- The URL of the claim's concrete test case. -/
def instagramTestUrl : String :=
  "https://scontent.cdninstagram.com/v/t51.2885-15/443711036_417575674565247_1156670569594802102_n.webp"

/-- C7: on the given URL the derived filename is exactly the final path
segment `443711036_417575674565247_1156670569594802102_n.webp`; and for
every URL on which the pattern finds no match, the generated fallback
name is a valid filesystem filename — non-empty and free of path
separators. -/
theorem c7_filenameDerivation :
    (∀ (now rand : Nat),
       Instagram.getOriginalFilenameFromUrl instagramTestUrl now rand =
         "443711036_417575674565247_1156670569594802102_n.webp") ∧
    (∀ (url : String) (now rand : Nat), Instagram.findMatch url.data = none →
       Instagram.getOriginalFilenameFromUrl url now rand ≠ "" ∧
       ∀ ch ∈ (Instagram.getOriginalFilenameFromUrl url now rand).data, ch ≠ '/') := by
  constructor
  · intro now rand
    rfl
  · intro url now rand hnone
    rw [Instagram.getOriginalFilenameFromUrl, hnone]
    refine ⟨?_, ?_⟩
    · intro he
      have hd := congrArg String.data he
      rw [String.data_append] at hd
      exact absurd (List.append_eq_nil.mp hd).2 (by decide)
    · intro ch hch
      rw [String.data_append, String.data_append, String.data_append,
        String.data_append] at hch
      have hlit1 : ∀ c ∈ "instagram_".data, c ≠ '/' := by decide
      have hlit2 : ∀ c ∈ "_".data, c ≠ '/' := by decide
      have hlit3 : ∀ c ∈ ".jpg".data, c ≠ '/' := by decide
      rcases List.mem_append.mp hch with h | h
      case _ =>
        rcases List.mem_append.mp h with h | h
        case _ =>
          rcases List.mem_append.mp h with h | h
          case _ =>
            rcases List.mem_append.mp h with h | h
            · exact hlit1 ch h
            · exact natRepr_ne_slash now ch h
          · exact hlit2 ch h
        · exact natRepr_ne_slash rand ch h
      · exact hlit3 ch h

/-- C7 witness: a URL with no match gets the fallback name, which is
non-empty and slash-free. -/
theorem c7_witness :
    Instagram.getOriginalFilenameFromUrl "nopattern" 1 2 ≠ "" ∧
    ∀ ch ∈ (Instagram.getOriginalFilenameFromUrl "nopattern" 1 2).data, ch ≠ '/' :=
  c7_filenameDerivation.2 "nopattern" 1 2 (by decide)
/-- Helper: flattening `n` copies of a one-character string is `n` copies
of the character. -/
theorem flatten_replicate_singleton (n : Nat) (c : Char) :
    (List.replicate n [c]).flatten = List.replicate n c := by
  induction n with
  | zero => rfl
  | succ m ih => simp [List.replicate_succ, ih]

/-- Helper: `substring(i, i+1)` of an in-range index is the single
character at that index. -/
theorem jsSubstring_single (l : List Char) (i : Int) (h0 : 0 ≤ i)
    (hlen : i < (l.length : Int)) :
    ∀ hn : i.toNat < l.length,
      Wakatime.jsSubstring l i (i + 1) = [l.get ⟨i.toNat, hn⟩] := by
  intro hn
  rw [Wakatime.jsSubstring]
  have hlo : min (max i 0) (l.length : Int) = i := by omega
  have hhi : min (max (i + 1) 0) (l.length : Int) = i + 1 := by omega
  rw [hlo, hhi]
  have hmin : min i (i + 1) = i := by omega
  have hmax : max i (i + 1) = i + 1 := by omega
  rw [hmin, hmax]
  have ht : (i + 1).toNat = i.toNat + 1 := by omega
  rw [ht, List.drop_take, Nat.add_sub_cancel_left, List.take_one_drop_eq_of_lt_length hn]

/-- Helper: for a non-negative `frac` and positive `size`, the rendered
bar has exactly `size` characters, all from the fill alphabet. -/
theorem barFromFrac_shape (frac : Int) (size : Nat) (hfrac : 0 ≤ frac) (hs : 0 < size) :
    (Wakatime.barFromFrac frac size).length = size ∧
    ∀ c ∈ Wakatime.barFromFrac frac size, c ∈ Wakatime.syms := by
  rw [Wakatime.barFromFrac]
  by_cases hb : Int.fdiv frac 8 ≥ (size : Int)
  · rw [if_pos hb]
    rw [show Wakatime.jsSubstring Wakatime.syms 8 9 = ['█'] from rfl,
      flatten_replicate_singleton]
    refine ⟨List.length_replicate _ _, ?_⟩
    intro c hc
    rcases List.mem_replicate.mp hc with ⟨_, rfl⟩
    decide
  · rw [if_neg hb]
    have hbf : 0 ≤ Int.fdiv frac 8 := Int.fdiv_nonneg hfrac (by omega)
    have hblt : Int.fdiv frac 8 < (size : Int) := lt_of_not_le hb
    have hbn : (Int.fdiv frac 8).toNat + 1 ≤ size := by omega
    have hsemi0 : 0 ≤ Int.tmod frac 8 := Int.tmod_nonneg _ hfrac
    have hsemi8 : Int.tmod frac 8 < 8 := Int.tmod_lt_of_pos _ (by omega)
    have hsymlen : ((Wakatime.syms.length : Nat) : Int) = 9 := by decide
    have hlt : Int.tmod frac 8 < (Wakatime.syms.length : Int) := by omega
    have hn : (Int.tmod frac 8).toNat < Wakatime.syms.length := by omega
    rw [show Wakatime.jsSubstring Wakatime.syms 8 9 = ['█'] from rfl,
      flatten_replicate_singleton]
    simp only []
    rw [jsSubstring_single Wakatime.syms (Int.tmod frac 8) hsemi0 hlt hn,
      Wakatime.padEnd]
    constructor
    · simp only [List.length_append, List.length_replicate, List.length_cons,
        List.length_nil]
      omega
    · intro c hc
      rcases List.mem_append.mp hc with h | h
      · rcases List.mem_append.mp h with h | h
        · rcases List.mem_replicate.mp h with ⟨_, rfl⟩
          decide
        · rcases List.mem_singleton.mp h with rfl
          exact List.get_mem _ _ _
      · rcases List.mem_replicate.mp h with ⟨_, rfl⟩
        decide

/-- C10: for every percentage between 0 and 100 and every positive size,
the bar is exactly `size` characters long and each character is one of
the nine fill glyphs `░▏▎▍▌▋▊▉█`. -/
theorem c10_barChartShape :
    ∀ (percent : ℚ) (size : Nat), 0 ≤ percent → percent ≤ 100 → 0 < size →
      (Wakatime.generateBarChart percent size).length = size ∧
      ∀ c ∈ Wakatime.generateBarChart percent size, c ∈ Wakatime.syms := by
  intro percent size hp hp100 hs
  have hfrac : (0 : Int) ≤ ⌊((size : ℚ) * 8 * percent) / 100⌋ := by
    apply Int.floor_nonneg.mpr
    positivity
  rw [Wakatime.generateBarChart]
  exact barFromFrac_shape _ size hfrac hs

/-- C10 witness: the 50% bar at width 21. -/
theorem c10_witness :
    (Wakatime.generateBarChart 50 21).length = 21 ∧
    ∀ c ∈ Wakatime.generateBarChart 50 21, c ∈ Wakatime.syms :=
  c10_barChartShape 50 21 (by norm_num) (by norm_num) (by norm_num)
/-- Helper: filtering a duplicate-free list by a predicate that holds at
exactly one of its elements yields that element alone. -/
theorem filter_eq_singleton_of_unique {α : Type _} (p : α → Bool) (a : α) :
    ∀ (xs : List α), xs.Nodup → a ∈ xs → p a = true →
      (∀ b ∈ xs, p b = true → b = a) → xs.filter p = [a] := by
  intro xs
  induction xs with
  | nil => intro _ ha _ _; cases ha
  | cons y ys ih =>
    intro hnd ha hpa huniq
    by_cases hpy : p y = true
    · have hya : y = a := huniq y (List.mem_cons_self y ys) hpy
      subst hya
      have hnotin : y ∉ ys := (List.nodup_cons.mp hnd).1
      have hfil : ys.filter p = [] := by
        rw [List.filter_eq_nil_iff]
        intro b hb hpb
        have hby : b = y := huniq b (List.mem_cons_of_mem _ hb) hpb
        rw [hby] at hb
        exact absurd hb hnotin
      rw [List.filter_cons_of_pos hpy, hfil]
    · have hmem : a ∈ ys := by
        rcases List.mem_cons.mp ha with rfl | h
        · exact absurd hpa hpy
        · exact h
      rw [List.filter_cons_of_neg hpy]
      exact ih (List.nodup_cons.mp hnd).2 hmem hpa
        (fun b hb hpb => huniq b (List.mem_cons_of_mem _ hb) hpb)

/-- Helper: `find?` returns exactly the element sitting at `findIdx`. -/
theorem getElem?_findIdx_of_find? {α : Type _} (p : α → Bool) :
    ∀ (l : List α) (e : α), l.find? p = some e → l[l.findIdx p]? = some e := by
  intro l
  induction l with
  | nil => intro e he; cases he
  | cons x xs ih =>
    intro e he
    by_cases hpx : p x = true
    · rw [List.find?_cons_of_pos _ hpx] at he
      injection he with he
      subst he
      rw [List.findIdx_cons, hpx, cond_true]
      exact List.getElem?_cons_zero
    · have hpx' : p x = false := by simpa using hpx
      rw [List.find?_cons_of_neg _ hpx] at he
      rw [List.findIdx_cons, hpx', cond_false, List.getElem?_cons_succ]
      exact ih e he

/-- C5: after merging all pages and sorting by `created_time` descending,
the uuid-based de-duplication keeps, for each uuid, exactly the entry
that appears first in the sorted order (so two entries sharing a uuid
collapse to the newer one), and the cleaned output stays sorted by
`created_time` descending. -/
theorem c5_mergeDedup :
    (∀ (nowIso : String) (allData : List NeoDB.NeoDBResponse) (u : String)
       (e : NeoDB.ShelfEntry),
       (NeoDB.sortedMergedData allData).find? (fun t => t.item.uuid == u) = some e →
       ((NeoDB.mergeAndCleanData nowIso allData).data.filter (fun x => x.uuid == u)) =
         [NeoDB.cleanEntry e]) ∧
    (∀ (nowIso : String) (allData : List NeoDB.NeoDBResponse),
       List.Pairwise (fun a b => b.created_time ≤ a.created_time)
         (NeoDB.mergeAndCleanData nowIso allData).data) := by
  constructor
  · intro nowIso allData u e hfind
    have hpe := List.find?_some hfind
    have hue : e.item.uuid = u := eq_of_beq hpe
    have hget : (NeoDB.sortedMergedData allData)[(NeoDB.sortedMergedData allData).findIdx
        (fun t => t.item.uuid == u)]? = some e :=
      getElem?_findIdx_of_find? _ _ e hfind
    have hmain : ((NeoDB.sortedMergedData allData).enum.filter (fun pr =>
        (pr.2.item.uuid == u) &&
          ((NeoDB.sortedMergedData allData).findIdx
            (fun t => t.item.uuid == pr.2.item.uuid) == pr.1))) =
        [((NeoDB.sortedMergedData allData).findIdx (fun t => t.item.uuid == u), e)] := by
      apply filter_eq_singleton_of_unique
      · exact List.Nodup.of_map Prod.fst (List.nodup_enum_map_fst _)
      · exact List.mem_enum_iff_getElem?.mpr hget
      · simp only [hue, beq_self_eq_true, Bool.and_self]
      · intro b hb hpb
        obtain ⟨j, x⟩ := b
        have hxj : (NeoDB.sortedMergedData allData)[j]? = some x :=
          List.mem_enum_iff_getElem?.mp hb
        rw [Bool.and_eq_true] at hpb
        obtain ⟨hpu, hidx⟩ := hpb
        have hxu : x.item.uuid = u := eq_of_beq hpu
        rw [show (fun t : NeoDB.ShelfEntry => t.item.uuid == x.item.uuid) =
            (fun t : NeoDB.ShelfEntry => t.item.uuid == u) from by rw [hxu]] at hidx
        have hji : (NeoDB.sortedMergedData allData).findIdx
            (fun t => t.item.uuid == u) = j := eq_of_beq hidx
        rw [← hji] at hxj
        rw [hget] at hxj
        injection hxj with hxe
        rw [hji, hxe]
    calc ((NeoDB.mergeAndCleanData nowIso allData).data.filter (fun x => x.uuid == u))
        = List.map NeoDB.cleanEntry
            (List.filter (fun t => t.item.uuid == u)
              (NeoDB.jsDedupByUuid (NeoDB.sortedMergedData allData))) :=
          List.filter_map _ _
      _ = List.map NeoDB.cleanEntry
            (List.filter (fun t => t.item.uuid == u)
              (List.map Prod.snd
                ((NeoDB.sortedMergedData allData).enum.filter (fun pr =>
                  (NeoDB.sortedMergedData allData).findIdx
                    (fun t => t.item.uuid == pr.2.item.uuid) == pr.1)))) := rfl
      _ = List.map NeoDB.cleanEntry
            (List.map Prod.snd
              (List.filter (fun pr => pr.2.item.uuid == u)
                ((NeoDB.sortedMergedData allData).enum.filter (fun pr =>
                  (NeoDB.sortedMergedData allData).findIdx
                    (fun t => t.item.uuid == pr.2.item.uuid) == pr.1)))) := by
          rw [List.filter_map]
          rfl
      _ = List.map NeoDB.cleanEntry
            (List.map Prod.snd
              ((NeoDB.sortedMergedData allData).enum.filter (fun pr =>
                (pr.2.item.uuid == u) &&
                  ((NeoDB.sortedMergedData allData).findIdx
                    (fun t => t.item.uuid == pr.2.item.uuid) == pr.1)))) := by
          rw [List.filter_filter]
      _ = [NeoDB.cleanEntry e] := by
          rw [hmain]
          rfl
  · intro nowIso allData
    have hsor : List.Pairwise NeoDB.descRel (NeoDB.sortedMergedData allData) :=
      List.sorted_insertionSort NeoDB.descRel _
    have hsub : List.Sublist (NeoDB.jsDedupByUuid (NeoDB.sortedMergedData allData))
        (NeoDB.sortedMergedData allData) := by
      rw [NeoDB.jsDedupByUuid]
      conv_rhs => rw [show NeoDB.sortedMergedData allData =
        (NeoDB.sortedMergedData allData).enum.map Prod.snd from
        (List.enum_map_snd _).symm]
      exact List.Sublist.map Prod.snd (List.filter_sublist _)
    have hded := List.Pairwise.sublist hsub hsor
    rw [show (NeoDB.mergeAndCleanData nowIso allData).data =
      (NeoDB.jsDedupByUuid (NeoDB.sortedMergedData allData)).map NeoDB.cleanEntry from rfl]
    rw [List.pairwise_map]
    exact hded

/-- C5 witness: one page holding two entries with the same uuid `u` and
different timestamps; the merge keeps exactly the newer entry `B`. -/
theorem c5_witness :
    ((NeoDB.mergeAndCleanData "t"
        [⟨[⟨⟨"A", "", "movie", "m", "u", 0, 0, "", ""⟩, 5⟩,
           ⟨⟨"B", "", "movie", "m", "u", 0, 0, "", ""⟩, 10⟩], 1, 2⟩]).data.filter
        (fun x => x.uuid == "u")) =
      [NeoDB.cleanEntry ⟨⟨"B", "", "movie", "m", "u", 0, 0, "", ""⟩, 10⟩] :=
  c5_mergeDedup.1 "t" _ "u" _ (by decide)
